import Mathlib

set_option linter.unusedVariables false

/-!
Verification of the RBD utility layer (drivers/storage/rbd/utils/utils.go).

The Go module wraps external tool invocations (rados / rbd), classifies
their outcomes, decodes their JSON or plain-text output, and normalizes
monitor address strings.  Here the pure result-interpretation logic is
embedded shallowly:

* process execution is a collaborator, so each operation takes the
  observed process outcome (`ExecResult`) as an argument;
* the textual JSON parser (encoding/json's grammar layer) is a
  collaborator, passed in as a `String -> Except String Json` argument,
  while the shape checks the Go side performs on the decoded value
  (unmarshalling into structs and maps) are modelled concretely;
* DNS resolution and literal IP parsing (the net package) are
  collaborators, bundled in a `NetEnv`; the pure string manipulation of
  net.SplitHostPort is modelled concretely, following Go's algorithm;
* Go errors are modelled as `Option String` results (none = nil error)
  carrying the formatted message.
-/

namespace RBDUtils

/-- Decoded JSON values, the shape-level view that Go's encoding/json
exposes through interface\x7b\x7d.  Objects are kept as association lists in
document order; numbers are modelled as integers (no claim inspects a
fractional value). -/
inductive Json where
  | null
  | bool (b : Bool)
  | num (n : Int)
  | str (s : String)
  | arr (elems : List Json)
  | obj (fields : List (String × Json))

/-- Association-list lookup, the model of indexing a decoded Go map.
Association lists built by `assocUpd` have unique keys, so first match
equals the map lookup. -/
def assocFind {α : Type} (m : List (String × α)) (k : String) : Option α :=
  match m with
  | [] => none
  | (k', v) :: rest => if k' = k then some v else assocFind rest k

/-- Insert into an association list with Go-map semantics: an existing
binding of the key is replaced in place, otherwise the binding is
appended. -/
def assocUpd {α : Type} (m : List (String × α)) (k : String) (v : α) :
    List (String × α) :=
  match m with
  | [] => [(k, v)]
  | (k', v') :: rest =>
      if k' = k then (k', v) :: rest else (k', v') :: assocUpd rest k v

/-- Rebuild a decoded JSON object's fields with Go-map key semantics:
a duplicated key keeps only its last value. -/
def assocDedup {α : Type} (fields : List (String × α)) : List (String × α) :=
  fields.foldl (fun acc kv => assocUpd acc kv.1 kv.2) []

theorem assocFind_assocUpd {α : Type} (m : List (String × α))
    (k' k : String) (v : α) :
    assocFind (assocUpd m k' v) k
      = if k' = k then some v else assocFind m k := by
  induction m with
  | nil => simp [assocUpd, assocFind]
  | cons p rest ih =>
      obtain ⟨a, b⟩ := p
      by_cases hak : a = k'
      · subst hak
        by_cases hk : a = k
        · simp [assocUpd, assocFind, hk]
        · simp [assocUpd, assocFind, hk]
      · by_cases hk : a = k
        · subst hk
          have : k' ≠ a := fun h => hak h.symm
          simp [assocUpd, assocFind, hak, this]
        · simp [assocUpd, assocFind, hak, hk, ih]

/-- Outcome of running one external command to completion, as the Go
code observes it from cmd.Output() / cmd.Run():
`success` is a nil error with the captured stdout; `exitError` is an
exec.ExitError whose WaitStatus carries the exit code, with the captured
stderr; `otherError` is any other execution error (e.g. spawn failure). -/
inductive ExecResult where
  | success (stdout : String)
  | exitError (code : Int) (stderr : String)
  | otherError (msg : String)
deriving DecidableEq, Repr

/-- Split a character stream at every newline.  The result is always
non-empty; its last element is the pending text after the final newline
(empty when the stream ends in a newline or is empty). -/
def splitNL : List Char → List (List Char)
  | [] => [[]]
  | c :: rest =>
      if c = '\n' then [] :: splitNL rest
      else
        match splitNL rest with
        | l :: ls => (c :: l) :: ls
        | [] => [[c]]

/-- Drop one trailing carriage return, as bufio.ScanLines' dropCR does. -/
def dropCR (l : List Char) : List Char :=
  if l.getLast? = some '\r' then l.dropLast else l

/-- Discard the empty pending text after a final newline: the scanner
produces no extra token for input that ends in a newline. -/
def trimFinal (parts : List (List Char)) : List (List Char) :=
  if parts.getLast? = some [] then parts.dropLast else parts

/-- Token stream produced by a bufio.Scanner with the default ScanLines
split function: one token per newline (the newline and an optional
preceding carriage return stripped), plus a final token for trailing
data not ended by a newline, when non-empty. -/
def scanLinesList (cs : List Char) : List String :=
  (trimFinal (splitNL cs)).map (fun l => String.mk (dropCR l))

/-- Scanner tokens of a string, the loop in GetRadosPools. -/
def scanLines (s : String) : List String :=
  scanLinesList s.data

/-- A Go *string pointer produced by taking the address of a slice
element: the backing slice together with the element index.
Dereferencing reads the element. -/
structure StrPtr where
  base : List String
  idx : Nat
deriving DecidableEq, Repr

/-- Dereference a string pointer. -/
def StrPtr.deref (p : StrPtr) : Option String :=
  p.base[p.idx]?

/-- ConvStrArrayToPtr from utils.go: ptrArr[i] = &strArr[i] for every i. -/
def ConvStrArrayToPtr (strArr : List String) : List StrPtr :=
  (List.range strArr.length).map (fun i => ⟨strArr, i⟩)

/-- GetRadosPools from utils.go, given the observed outcome of running
rados lspools: on success the stdout is scanned line by line into pool
names; on failure the formatted error is returned with a nil slice. -/
def GetRadosPools (res : ExecResult) : Option (List StrPtr) × Option String :=
  match res with
  | .exitError _ stderr => (none, some ("Unable to get pools: " ++ stderr))
  | .otherError msg => (none, some ("Unable to get pools: " ++ msg))
  | .success out => (some (ConvStrArrayToPtr (scanLines out)), none)

/-- Concatenate lines, terminating every line with a newline. -/
def joinNL : List (List Char) → List Char
  | [] => []
  | l :: ls => l ++ '\n' :: joinNL ls

theorem splitNL_append_newline (l : List Char) (rest : List Char)
    (h : ('\n' : Char) ∉ l) :
    splitNL (l ++ '\n' :: rest) = l :: splitNL rest := by
  induction l with
  | nil => simp [splitNL]
  | cons c l' ih =>
      have hc : c ≠ '\n' := fun hc => h (hc ▸ List.mem_cons_self c l')
      have h' : ('\n' : Char) ∉ l' := fun hm => h (List.mem_cons_of_mem _ hm)
      simp only [List.cons_append, splitNL, if_neg hc, List.append_eq, ih h']

theorem splitNL_joinNL (parts : List (List Char))
    (h : ∀ l ∈ parts, ('\n' : Char) ∉ l) :
    splitNL (joinNL parts) = parts ++ [[]] := by
  induction parts with
  | nil => simp [joinNL, splitNL]
  | cons l ls ih =>
      have hl : ('\n' : Char) ∉ l := h l (List.mem_cons_self l ls)
      have hls : ∀ x ∈ ls, ('\n' : Char) ∉ x :=
        fun x hx => h x (List.mem_cons_of_mem _ hx)
      simp only [joinNL, splitNL_append_newline l _ hl, ih hls,
        List.cons_append]

theorem scanLinesList_joinNL (parts : List (List Char))
    (hnl : ∀ l ∈ parts, ('\n' : Char) ∉ l)
    (hcr : ∀ l ∈ parts, l.getLast? ≠ some '\r') :
    scanLinesList (joinNL parts) = parts.map String.mk := by
  unfold scanLinesList
  rw [splitNL_joinNL parts hnl]
  have hlast : (parts ++ [([] : List Char)]).getLast? = some [] := by
    simp [List.getLast?_concat]
  have hdrop : (parts ++ [([] : List Char)]).dropLast = parts := by
    simp
  rw [trimFinal, if_pos hlast, hdrop]
  apply List.map_congr_left
  intro l hl
  rw [dropCR, if_neg (hcr l hl)]

/-- Dereferencing the pointers built by ConvStrArrayToPtr recovers the
original strings in order. -/
theorem convStrArrayToPtr_deref_map (xs : List String) :
    (ConvStrArrayToPtr xs).map StrPtr.deref = xs.map some := by
  apply List.ext_getElem?
  intro i
  by_cases h : i < xs.length
  · simp [ConvStrArrayToPtr, StrPtr.deref, h]
  · have h' : xs.length ≤ i := Nat.le_of_not_lt h
    simp [ConvStrArrayToPtr, StrPtr.deref, List.getElem?_eq_none,
      h', Nat.le_of_not_lt, h]

/-- C9: ConvStrArrayToPtr returns a slice of the same length whose i-th
pointer dereferences to the i-th input string, for every index. -/
theorem convStrArrayToPtr_pointwise (strArr : List String) (i : Nat) :
    (ConvStrArrayToPtr strArr).length = strArr.length
    ∧ ((ConvStrArrayToPtr strArr)[i]?.bind StrPtr.deref) = strArr[i]? := by
  constructor
  · simp [ConvStrArrayToPtr]
  · by_cases h : i < strArr.length
    · simp [ConvStrArrayToPtr, StrPtr.deref, h]
    · have h' : strArr.length ≤ i := Nat.le_of_not_lt h
      simp [ConvStrArrayToPtr, StrPtr.deref, List.getElem?_eq_none, h']

/-- C3 counterexample: on tool output "a\nb\n\nc\n" the pool listing
keeps the blank line as an empty pool name — the scanner loop appends
every scanned line, including empty ones — so the result is
["a","b","","c"], not ["a","b","c"] as claimed. -/
theorem getRadosPools_counterexample :
    (GetRadosPools (ExecResult.success "a\nb\n\nc\n")).1.map
        (fun l => l.map StrPtr.deref)
      = some [some "a", some "b", some "", some "c"]
    ∧ ([some "a", some "b", some "", some "c"] :
        List (Option String)) ≠ [some "a", some "b", some "c"] := by
  constructor
  · rfl
  · decide

/-- C3 amended: the pool listing splits stdout on newlines into one
entry per line in order, dropping a final newline terminator but
keeping blank lines as empty names; on "a\nb\n\nc\n" it returns
["a","b","","c"]. -/
theorem getRadosPools_line_split (parts : List (List Char))
    (hnl : ∀ l ∈ parts, ('\n' : Char) ∉ l)
    (hcr : ∀ l ∈ parts, l.getLast? ≠ some '\r') :
    ((GetRadosPools (ExecResult.success (String.mk (joinNL parts)))).1.map
        (fun l => l.map StrPtr.deref)
      = some (parts.map (fun l => some (String.mk l))))
    ∧ (GetRadosPools (ExecResult.success "a\nb\n\nc\n")).1.map
        (fun l => l.map StrPtr.deref)
      = some [some "a", some "b", some "", some "c"] := by
  constructor
  · show some ((ConvStrArrayToPtr
        (scanLinesList (String.mk (joinNL parts)).data)).map StrPtr.deref)
      = _
    have hdata : (String.mk (joinNL parts)).data = joinNL parts := rfl
    rw [hdata, scanLinesList_joinNL parts hnl hcr,
      convStrArrayToPtr_deref_map]
    simp
  · rfl

/-- Concrete instantiation of the C3 amended theorem at
parts = ["a","b","","c"]. -/
theorem getRadosPools_line_split_witness :
    (GetRadosPools (ExecResult.success
        (String.mk (joinNL [['a'], ['b'], [], ['c']])))).1.map
        (fun l => l.map StrPtr.deref)
      = some [some "a", some "b", some "", some "c"] := by
  have h := (getRadosPools_line_split [['a'], ['b'], [], ['c']]
    (by decide) (by decide)).1
  simpa using h

/-- GetVolumeID from utils.go: fmt.Sprintf("%s.%s", *pool, *image). -/
def GetVolumeID (pool image : String) : String :=
  pool ++ "." ++ image

/-- Splitting a character list at the first occurrence of a separator
character absent from the prefix determines both halves. -/
theorem append_sep_inj (sep : Char) :
    ∀ (a c : List Char) (b d : List Char),
      sep ∉ a → sep ∉ c →
      a ++ sep :: b = c ++ sep :: d → a = c ∧ b = d := by
  intro a
  induction a with
  | nil =>
      intro c b d _ hc h
      cases c with
      | nil =>
          simp at h
          exact ⟨rfl, h⟩
      | cons x c' =>
          simp at h
          exact absurd (h.1 ▸ List.mem_cons_self x c') hc
  | cons x a' ih =>
      intro c b d ha hc h
      cases c with
      | nil =>
          simp at h
          exact absurd (h.1 ▸ List.mem_cons_self sep a') ha
      | cons y c' =>
          simp at h
          obtain ⟨hxy, hrest⟩ := h
          have ha' : sep ∉ a' := fun hm => ha (List.mem_cons_of_mem _ hm)
          have hc' : sep ∉ c' := fun hm => hc (List.mem_cons_of_mem _ hm)
          obtain ⟨h1, h2⟩ := ih c' b d ha' hc' hrest
          exact ⟨by rw [hxy, h1], h2⟩

/-- C7: GetVolumeID formats pool and image as pool ++ "." ++ image, and
over pairs whose components are free of the separator character it is
injective: distinct (pool, image) pairs never collide. -/
theorem getVolumeID_format_and_injective :
    (∀ pool image : String, GetVolumeID pool image = pool ++ "." ++ image)
    ∧ (∀ p1 i1 p2 i2 : String,
        ('.' : Char) ∉ p1.data → ('.' : Char) ∉ i1.data →
        ('.' : Char) ∉ p2.data → ('.' : Char) ∉ i2.data →
        GetVolumeID p1 i1 = GetVolumeID p2 i2 → p1 = p2 ∧ i1 = i2) := by
  constructor
  · intro pool image
    rfl
  · intro p1 i1 p2 i2 hp1 _ hp2 _ h
    have hdata : p1.data ++ '.' :: i1.data = p2.data ++ '.' :: i2.data := by
      have h' := congrArg String.data h
      simpa [GetVolumeID, String.data_append] using h'
    obtain ⟨h1, h2⟩ := append_sep_inj '.' p1.data p2.data i1.data i2.data
      hp1 hp2 hdata
    exact ⟨String.ext h1, String.ext h2⟩

/-- Concrete instantiation of the C7 theorem: the hypotheses hold and
identity of volume IDs forces identity of the pairs on a sample input. -/
theorem getVolumeID_format_and_injective_witness :
    GetVolumeID "rbd" "vol1" = "rbd" ++ "." ++ "vol1"
    ∧ ("rbd" = "rbd" ∧ "vol1" = "vol1") := by
  refine ⟨getVolumeID_format_and_injective.1 "rbd" "vol1", ?_⟩
  exact getVolumeID_format_and_injective.2 "rbd" "vol1" "rbd" "vol1"
    (by decide) (by decide) (by decide) (by decide) rfl

/-- RBDInfo from utils.go.  The Go field BlockNamePrefix (json tag
block_name_prefix) is rendered here as blockNamePfx. -/
structure RBDInfo where
  name : String
  size : Int
  objects : Int
  order : Int
  objectSize : Int
  blockNamePfx : String
  format : Int
  features : List String
  pool : String
deriving DecidableEq, Repr

/-- Read a string-typed struct field from a decoded JSON object, with
encoding/json semantics: an absent key or a JSON null leaves the zero
value; a non-string value is a type error. -/
def getStrField (m : List (String × Json)) (k : String) :
    Except String String :=
  match assocFind m k with
  | none => .ok ""
  | some (.str s) => .ok s
  | some .null => .ok ""
  | some _ => .error ("json: cannot unmarshal value of key " ++ k)

/-- Read an integer-typed struct field from a decoded JSON object. -/
def getIntField (m : List (String × Json)) (k : String) :
    Except String Int :=
  match assocFind m k with
  | none => .ok 0
  | some (.num n) => .ok n
  | some .null => .ok 0
  | some _ => .error ("json: cannot unmarshal value of key " ++ k)

/-- Read a string-sequence struct field from a decoded JSON object. -/
def getStrListField (m : List (String × Json)) (k : String) :
    Except String (List String) :=
  match assocFind m k with
  | none => .ok []
  | some .null => .ok []
  | some (.arr elems) =>
      elems.mapM (fun j =>
        match j with
        | .str s => Except.ok s
        | _ => Except.error ("json: cannot unmarshal value of key " ++ k))
  | some _ => .error ("json: cannot unmarshal value of key " ++ k)

/-- Unmarshal the decoded JSON document of rbd info into RBDInfo:
the document must be an object; tagged fields are read by name, with
missing fields left at their zero value.  The Pool field has no json
tag: it stays empty and is filled by the caller. -/
def unmarshalRBDInfo (j : Json) : Except String RBDInfo :=
  match j with
  | .obj fields => do
      let m := assocDedup fields
      let name ← getStrField m "name"
      let size ← getIntField m "size"
      let objects ← getIntField m "objects"
      let order ← getIntField m "order"
      let objectSize ← getIntField m "object_size"
      let pfx ← getStrField m "block_name_prefix"
      let format ← getIntField m "format"
      let features ← getStrListField m "features"
      .ok ⟨name, size, objects, order, objectSize, pfx, format, features, ""⟩
  | _ => .error "json: cannot unmarshal non-object into RBDInfo"

/-- GetRBDInfo from utils.go, given the observed outcome of running
rbd info -p pool name --format json and the external JSON parser.
Exit code 2 means the image does not exist: both results are nil.
Any other failure is formatted into an error; on success the payload
is decoded and the Pool field filled from the input pool. -/
def GetRBDInfo (parse : String → Except String Json)
    (pool name : String) (res : ExecResult) :
    Option RBDInfo × Option String :=
  match res with
  | .exitError code stderr =>
      if code = 2 then (none, none)
      else (none, some ("Unable to get rbd info: " ++ stderr))
  | .otherError msg => (none, some ("Unable to get rbd info: " ++ msg))
  | .success out =>
      match parse out >>= unmarshalRBDInfo with
      | .error e => (none, some ("Unable to parse rbd info: " ++ e))
      | .ok info => (some { info with pool := pool }, none)

/-- C1: for every non-empty (pool, image) input and every parser, an
exit status of 2 from the describe-image tool makes GetRBDInfo return
the NotFound outcome: a nil info together with a nil error. -/
theorem getRBDInfo_exit2_notFound
    (parse : String → Except String Json) (pool name stderr : String)
    (hpool : pool ≠ "") (hname : name ≠ "") :
    GetRBDInfo parse pool name (ExecResult.exitError 2 stderr)
      = (none, none) := by
  rfl

/-- Concrete instantiation of the C1 theorem. -/
theorem getRBDInfo_exit2_notFound_witness :
    GetRBDInfo (fun s => Except.error s) "rbd" "vol1"
        (ExecResult.exitError 2 "rbd: error opening image")
      = (none, none) :=
  getRBDInfo_exit2_notFound (fun s => Except.error s) "rbd" "vol1"
    "rbd: error opening image" (by decide) (by decide)

/-- Unmarshal the decoded JSON status document into the Go map
map[string]Json: the document must be an object; duplicate keys keep
the last value. -/
def unmarshalStatusDoc (j : Json) :
    Except String (List (String × Json)) :=
  match j with
  | .obj fields => .ok (assocDedup fields)
  | _ => .error "json: cannot unmarshal non-object into map"

/-- The watcher-presence switch of RBDHasWatchers in utils.go: indexing
the status document at watchers, a keyed mapping or a sequence reduces
to its non-emptiness; every other shape (key absent, null, or any other
value) is the parse-failure arm. -/
def hasWatchersOf (m : List (String × Json)) : Bool × Option String :=
  match assocFind m "watchers" with
  | some (.obj v) => (decide (v.length > 0), none)
  | some (.arr v) => (decide (v.length > 0), none)
  | _ => (false, some "Unable to parse RBD status watchers")

/-- GetRBDStatus from utils.go, given the observed outcome of running
rbd status and the external JSON parser. -/
def GetRBDStatus (parse : String → Except String Json)
    (pool image : String) (res : ExecResult) :
    Option (List (String × Json)) × Option String :=
  match res with
  | .exitError _ stderr => (none, some ("Unable to get RBD status: " ++ stderr))
  | .otherError msg => (none, some ("Unable to get RBD status: " ++ msg))
  | .success out =>
      match parse out >>= unmarshalStatusDoc with
      | .error e => (none, some ("Unable to parse rbd status: " ++ e))
      | .ok m => (some m, none)

/-- RBDHasWatchers from utils.go: fetch the status document, propagate
its error with a false boolean, otherwise run the watcher-presence
switch (indexing a nil map finds no key, like an empty document). -/
def RBDHasWatchers (parse : String → Except String Json)
    (pool image : String) (res : ExecResult) : Bool × Option String :=
  match GetRBDStatus parse pool image res with
  | (_, some e) => (false, some e)
  | (m, none) => hasWatchersOf (m.getD [])

/-- C2: the watcher-presence interpreter returns non-emptiness of a
mapping-shaped or sequence-shaped watchers field with no error, and a
decode failure on every other shape, including an absent field; with
the five concrete evaluations from the specification. -/
theorem hasWatchers_shape_dispatch :
    (∀ (m : List (String × Json)) (v : List (String × Json)),
        assocFind m "watchers" = some (Json.obj v) →
        hasWatchersOf m = (decide (v.length > 0), none))
    ∧ (∀ (m : List (String × Json)) (v : List Json),
        assocFind m "watchers" = some (Json.arr v) →
        hasWatchersOf m = (decide (v.length > 0), none))
    ∧ (∀ m : List (String × Json),
        (∀ v, assocFind m "watchers" ≠ some (Json.obj v)) →
        (∀ v, assocFind m "watchers" ≠ some (Json.arr v)) →
        hasWatchersOf m = (false, some "Unable to parse RBD status watchers"))
    ∧ hasWatchersOf [("watchers", Json.obj [])] = (false, none)
    ∧ hasWatchersOf [("watchers", Json.obj [("w1", Json.obj [])])]
        = (true, none)
    ∧ hasWatchersOf [("watchers", Json.arr [])] = (false, none)
    ∧ hasWatchersOf [("watchers", Json.arr [Json.obj []])] = (true, none)
    ∧ hasWatchersOf []
        = (false, some "Unable to parse RBD status watchers") := by
  refine ⟨?_, ?_, ?_, rfl, rfl, rfl, rfl, rfl⟩
  · intro m v h
    unfold hasWatchersOf
    rw [h]
  · intro m v h
    unfold hasWatchersOf
    rw [h]
  · intro m hobj harr
    unfold hasWatchersOf
    rcases hj : assocFind m "watchers" with _ | j
    · rfl
    · cases j with
      | obj v => exact absurd hj (hobj v)
      | arr v => exact absurd hj (harr v)
      | null => rfl
      | bool b => rfl
      | num n => rfl
      | str s => rfl

/-- Concrete instantiation of the C2 theorem's mapping arm. -/
theorem hasWatchers_shape_dispatch_witness :
    hasWatchersOf [("watchers", Json.obj [("w1", Json.obj [])])]
      = (decide (([("w1", Json.obj [])] : List (String × Json)).length > 0),
          none) :=
  hasWatchers_shape_dispatch.1
    [("watchers", Json.obj [("w1", Json.obj [])])] [("w1", Json.obj [])] rfl

/-- The watcher-presence switch never pairs a true boolean with an
error: its failure arm carries false. -/
theorem hasWatchersOf_error_false (m : List (String × Json)) (e : String)
    (h : (hasWatchersOf m).2 = some e) : (hasWatchersOf m).1 = false := by
  unfold hasWatchersOf at h ⊢
  rcases hj : assocFind m "watchers" with _ | j
  · rfl
  · cases j with
    | obj v => rw [hj] at h; simp at h
    | arr v => rw [hj] at h; simp at h
    | null => rfl
    | bool b => rfl
    | num n => rfl
    | str s => rfl

/-- C10: whenever RBDHasWatchers returns a non-nil error, its boolean
result is false, over every parser, input pair and process outcome. -/
theorem rbdHasWatchers_error_implies_false
    (parse : String → Except String Json) (pool image : String)
    (res : ExecResult) (e : String)
    (h : (RBDHasWatchers parse pool image res).2 = some e) :
    (RBDHasWatchers parse pool image res).1 = false := by
  revert h
  unfold RBDHasWatchers
  rcases hs : GetRBDStatus parse pool image res with ⟨m, err⟩
  cases err with
  | some e' => intro h; rfl
  | none => intro h; exact hasWatchersOf_error_false _ e h

/-- Concrete instantiation of the C10 theorem: an unparseable status
payload yields an error and a false boolean. -/
theorem rbdHasWatchers_error_implies_false_witness :
    (RBDHasWatchers (fun _ => Except.error "invalid character")
        "rbd" "vol1" (ExecResult.success "not json")).1 = false :=
  rbdHasWatchers_error_implies_false (fun _ => Except.error "invalid character")
    "rbd" "vol1" (ExecResult.success "not json")
    "Unable to parse rbd status: invalid character" rfl

/-- rbdMappedEntry from utils.go: one locally mapped device as reported
by rbd showmapped. -/
structure RbdMappedEntry where
  device : String
  name : String
  pool : String
  snap : String
deriving DecidableEq, Repr

/-- The key under which GetMappedRBDs re-keys an entry:
GetVolumeID(entry.pool, entry.name). -/
def entryVolumeID (e : RbdMappedEntry) : String :=
  GetVolumeID e.pool e.name

/-- Unmarshal one decoded JSON value into rbdMappedEntry. -/
def unmarshalMappedEntry (j : Json) : Except String RbdMappedEntry :=
  match j with
  | .obj fields => do
      let m := assocDedup fields
      let device ← getStrField m "device"
      let name ← getStrField m "name"
      let pool ← getStrField m "pool"
      let snap ← getStrField m "snap"
      .ok ⟨device, name, pool, snap⟩
  | _ => .error "json: cannot unmarshal non-object into rbdMappedEntry"

/-- Unmarshal the rbd showmapped document into the entry sequence of
map[string]*rbdMappedEntry: the document must be an object, its
arbitrary keys are kept only to deduplicate, and its values decode as
entries.  Go iterates the resulting map in an unspecified order; the
model fixes document order as the iteration order. -/
def unmarshalMappedMap (j : Json) : Except String (List RbdMappedEntry) :=
  match j with
  | .obj fields => (assocDedup fields).mapM (fun kv => unmarshalMappedEntry kv.2)
  | _ => .error "json: cannot unmarshal non-object into map"

/-- The re-keying loop of GetMappedRBDs: each entry is inserted into
the device map under its VolumeID with its device path as value. -/
def invertMappedRBDs (entries : List RbdMappedEntry) :
    List (String × String) :=
  entries.foldl (fun devMap e => assocUpd devMap (entryVolumeID e) e.device) []

/-- GetMappedRBDs from utils.go, given the observed outcome of running
rbd showmapped and the external JSON parser. -/
def GetMappedRBDs (parse : String → Except String Json) (res : ExecResult) :
    Option (List (String × String)) × Option String :=
  match res with
  | .exitError _ stderr => (none, some ("Unable to get RBD map: " ++ stderr))
  | .otherError msg => (none, some ("Unable to get RBD map: " ++ msg))
  | .success out =>
      match parse out >>= unmarshalMappedMap with
      | .error e => (none, some ("Unable to parse rbd showmapped: " ++ e))
      | .ok entries => (some (invertMappedRBDs entries), none)

theorem invert_foldl_find (entries : List RbdMappedEntry)
    (acc : List (String × String)) (k : String) :
    assocFind
        (entries.foldl
          (fun devMap e => assocUpd devMap (entryVolumeID e) e.device) acc) k
      = (entries.reverse.find?
            (fun e => decide (entryVolumeID e = k))).elim
          (assocFind acc k) (fun e => some e.device) := by
  induction entries generalizing acc with
  | nil => simp
  | cons e rest ih =>
      rw [List.foldl_cons, ih, List.reverse_cons, List.find?_append]
      cases hfind : rest.reverse.find? (fun e => decide (entryVolumeID e = k))
        with
      | some x => simp [hfind]
      | none =>
          rw [assocFind_assocUpd]
          by_cases hk : entryVolumeID e = k
          · simp [hfind, List.find?, hk]
          · simp [hfind, List.find?, hk]

/-- C8: the re-keying step maps each entry to the key built from its
pool and image with its device path as value, discarding the tool's
keys; the value found under a key is the device of the last entry in
iteration order whose VolumeID equals it, so of two colliding entries
exactly one survives, the later one. -/
theorem invertMappedRBDs_last_write_wins :
    (∀ (entries : List RbdMappedEntry) (k : String),
        assocFind (invertMappedRBDs entries) k
          = (entries.reverse.find?
                (fun e => decide (entryVolumeID e = k))).map
              RbdMappedEntry.device)
    ∧ (∀ entries : List RbdMappedEntry, ∀ e ∈ entries,
        (assocFind (invertMappedRBDs entries) (entryVolumeID e)).isSome)
    ∧ (∀ e1 e2 : RbdMappedEntry, entryVolumeID e1 = entryVolumeID e2 →
        invertMappedRBDs [e1, e2] = [(entryVolumeID e2, e2.device)]) := by
  have hmain : ∀ (entries : List RbdMappedEntry) (k : String),
      assocFind (invertMappedRBDs entries) k
        = (entries.reverse.find?
              (fun e => decide (entryVolumeID e = k))).map
            RbdMappedEntry.device := by
    intro entries k
    rw [invertMappedRBDs, invert_foldl_find]
    cases hfind : entries.reverse.find? (fun e => decide (entryVolumeID e = k))
      with
    | some x => rfl
    | none => rfl
  refine ⟨hmain, ?_, ?_⟩
  · intro entries e he
    rw [hmain]
    have : (entries.reverse.find?
        (fun x => decide (entryVolumeID x = entryVolumeID e))).isSome := by
      rw [List.find?_isSome]
      exact ⟨e, List.mem_reverse.mpr he, by simp⟩
    rcases Option.isSome_iff_exists.mp this with ⟨x, hx⟩
    rw [hx]
    rfl
  · intro e1 e2 h
    simp only [invertMappedRBDs, List.foldl_cons, List.foldl_nil, assocUpd,
      if_pos h]
    rw [h]

/-- Concrete instantiation of the C8 theorem's collision arm: two
entries with the same pool and image collapse to one binding holding
the later device. -/
theorem invertMappedRBDs_last_write_wins_witness :
    invertMappedRBDs
        [⟨"/dev/rbd0", "img", "rbd", ""⟩, ⟨"/dev/rbd1", "img", "rbd", ""⟩]
      = [(entryVolumeID ⟨"/dev/rbd1", "img", "rbd", ""⟩, "/dev/rbd1")] :=
  invertMappedRBDs_last_write_wins.2.2
    ⟨"/dev/rbd0", "img", "rbd", ""⟩ ⟨"/dev/rbd1", "img", "rbd", ""⟩ rfl

/-- Anchor test for the tail pattern at the current character: true iff
the character is the closing bracket and the rest is a colon followed
by a non-empty run of decimal digits ending the string. -/
def rxHere (c : Char) (rest : List Char) : Bool :=
  if c = ']' then
    match rest with
    | r :: ds => decide (r = ':') && decide (ds ≠ [])
        && ds.all (fun d => d.isDigit)
    | [] => false
  else false

/-- Tail matcher for the compiled pattern of utils.go after its leading
bracket: true iff the characters decompose as mid ++ "]:" ++ digits,
where mid is newline-free (the dot of the pattern) and digits is a
non-empty run of decimal digits ending the string. -/
def rxTail : List Char → Bool
  | [] => false
  | c :: rest => rxHere c rest || (decide (c ≠ '\n') && rxTail rest)

/-- The global regular expression of utils.go, anchored on both sides:
a leading bracket followed by the tail pattern. -/
def matchIPv6wPort (s : String) : Bool :=
  match s.data with
  | c :: rest => decide (c = '[') && rxTail rest
  | [] => false

/-- hasPort from utils.go: a leading bracket routes to the bracketed
IPv6-with-port pattern; anything else carries a port iff it contains a
colon anywhere. -/
def hasPort (addr : String) : Bool :=
  if addr.data.head? = some '[' then matchIPv6wPort addr
  else addr.data.contains ':'

/-- A character of the cutset of strings.Trim(host, "[]"). -/
def isBracketChar (c : Char) : Bool :=
  c == '[' || c == ']'

/-- strings.Trim with the bracket cutset: strip every leading and
trailing bracket character. -/
def trimBracketChars (host : List Char) : List Char :=
  ((host.dropWhile isBracketChar).reverse.dropWhile isBracketChar).reverse

/-- Index of the last occurrence of a character. -/
def lastIndexOfChar (cs : List Char) (c : Char) : Option Nat :=
  match cs with
  | [] => none
  | x :: rest =>
      match lastIndexOfChar rest c with
      | some i => some (i + 1)
      | none => if x = c then some 0 else none

/-- Index of the first occurrence of a character. -/
def firstIndexOfChar (cs : List Char) (c : Char) : Option Nat :=
  match cs with
  | [] => none
  | x :: rest =>
      if x = c then some 0
      else (firstIndexOfChar rest c).map (· + 1)

/-- Pure model of the collaborator net.SplitHostPort, following Go: the
port starts after the last colon; a leading bracket requires the first
closing bracket immediately before that colon, with the host taken from
inside the brackets; otherwise the host is everything before the colon
and may not itself contain a colon; stray brackets are rejected. -/
def goSplitHostPort (hostport : String) : Except String (String × String) :=
  let cs := hostport.data
  match lastIndexOfChar cs ':' with
  | none => .error "missing port in address"
  | some i =>
      if cs.head? = some '[' then
        match firstIndexOfChar cs ']' with
        | none => .error "missing bracket in address"
        | some e =>
            if e + 1 = cs.length then .error "missing port in address"
            else if e + 1 = i then
              if (cs.drop 1).contains '[' then
                .error "unexpected bracket in address"
              else if (cs.drop (e + 1)).contains ']' then
                .error "unexpected bracket in address"
              else
                .ok (String.mk ((cs.drop 1).take (e - 1)),
                  String.mk (cs.drop (i + 1)))
            else if cs[e + 1]? = some ':' then
              .error "too many colons in address"
            else .error "missing port in address"
      else
        if (cs.take i).contains ':' then .error "too many colons in address"
        else if cs.contains '[' then .error "unexpected bracket in address"
        else if cs.contains ']' then .error "unexpected bracket in address"
        else .ok (String.mk (cs.take i), String.mk (cs.drop (i + 1)))

/-- An IP address as produced by the net collaborator, identified by
its canonical text. -/
structure IPAddr where
  addr : String
deriving DecidableEq, Repr

/-- The net collaborator consumed by the address normalizer: literal IP
parsing and DNS resolution, specified only at their interface
boundary. -/
structure NetEnv where
  parseIP : String → Option IPAddr
  lookupIP : String → Except String (List IPAddr)

/-- One iteration of the ParseMonitorAddresses loop on entry mon: split
off a detected port, strip brackets from a bracketed host, then take
the literal IP or every resolved address; an empty resolution result
contributes nothing. -/
def stepEntry (env : NetEnv) (monIps : List IPAddr) (mon : String) :
    Except String (List IPAddr) := do
  let host ←
    if hasPort mon then
      match goSplitHostPort mon with
      | .error e => Except.error e
      | .ok (h, _) => Except.ok h
    else Except.ok mon
  let host := if host.data.head? = some '[' then
      String.mk (trimBracketChars host.data)
    else host
  match env.parseIP host with
  | some ip => Except.ok (monIps ++ [ip])
  | none =>
      match env.lookupIP host with
      | .error e => Except.error e
      | .ok ips =>
          Except.ok (if ips.length > 0 then monIps ++ ips else monIps)

/-- The loop of ParseMonitorAddresses: a failing entry aborts with a
nil slice and the error; otherwise the accumulated addresses are
returned with a nil error. -/
def parseMonAux (env : NetEnv) (monIps : List IPAddr) :
    List String → List IPAddr × Option String
  | [] => (monIps, none)
  | mon :: rest =>
      match stepEntry env monIps mon with
      | .error e => ([], some e)
      | .ok monIps' => parseMonAux env monIps' rest

/-- ParseMonitorAddresses from utils.go, over the net collaborator. -/
def ParseMonitorAddresses (env : NetEnv) (addrs : List String) :
    List IPAddr × Option String :=
  parseMonAux env [] addrs

theorem rxHere_iff (c : Char) (rest : List Char) :
    rxHere c rest = true ↔
      c = ']' ∧ ∃ ds, rest = ':' :: ds ∧ ds ≠ [] ∧ ∀ d ∈ ds, d.isDigit := by
  by_cases hc : c = ']'
  · cases rest with
    | nil => simp [rxHere, hc]
    | cons r ds =>
        simp [rxHere, hc, List.all_eq_true, and_assoc, eq_comm (a := r)]
  · simp [rxHere, hc]

theorem rxTail_iff (l : List Char) :
    rxTail l = true ↔ ∃ (mid ds : List Char),
      l = mid ++ ']' :: ':' :: ds ∧ (∀ c ∈ mid, c ≠ '\n')
      ∧ ds ≠ [] ∧ ∀ d ∈ ds, d.isDigit := by
  induction l with
  | nil =>
      constructor
      · intro h; simp [rxTail] at h
      · rintro ⟨mid, ds, h, -, -, -⟩
        cases mid <;> simp at h
  | cons c rest ih =>
      constructor
      · intro h
        have h' : rxHere c rest = true ∨ (c ≠ '\n' ∧ rxTail rest = true) := by
          simpa [rxTail] using h
        rcases h' with hh | ⟨hnl, htl⟩
        · obtain ⟨hc, ds, hrest, hne, hdig⟩ := (rxHere_iff c rest).mp hh
          exact ⟨[], ds, by rw [hc, hrest]; rfl, by simp, hne, hdig⟩
        · obtain ⟨mid, ds, hrest, hmid, hne, hdig⟩ := ih.mp htl
          refine ⟨c :: mid, ds, by rw [hrest]; rfl, ?_, hne, hdig⟩
          intro x hx
          rcases List.mem_cons.mp hx with hx | hx
          · exact hx ▸ hnl
          · exact hmid x hx
      · rintro ⟨mid, ds, heq, hmid, hne, hdig⟩
        cases mid with
        | nil =>
            simp only [List.nil_append, List.cons.injEq] at heq
            obtain ⟨hc, hrest⟩ := heq
            have : rxHere c rest = true :=
              (rxHere_iff c rest).mpr ⟨hc, ds, hrest, hne, hdig⟩
            simp [rxTail, this]
        | cons m mid' =>
            simp only [List.cons_append, List.cons.injEq] at heq
            obtain ⟨hc, hrest⟩ := heq
            have hcnl : c ≠ '\n' := by
              rw [hc]
              exact hmid m (List.mem_cons_self m mid')
            have hmid' : ∀ x ∈ mid', x ≠ '\n' :=
              fun x hx => hmid x (List.mem_cons_of_mem _ hx)
            have : rxTail rest = true := ih.mpr ⟨mid', ds, hrest, hmid', hne, hdig⟩
            simp [rxTail, this, hcnl]

/-- A no-port entry whose host is a literal IP appends exactly that
address. -/
theorem stepEntry_noPort_literal (env : NetEnv) (acc : List IPAddr)
    (mon : String) (ip : IPAddr)
    (hp : hasPort mon = false)
    (hb : mon.data.head? ≠ some '[')
    (hip : env.parseIP mon = some ip) :
    stepEntry env acc mon = Except.ok (acc ++ [ip]) := by
  simp only [stepEntry, hp, Bool.false_eq_true, if_false, if_neg hb,
    bind, Except.bind, hip]

/-- A no-port entry with a bracketed host has its brackets stripped
before the literal parse. -/
theorem stepEntry_noPort_bracket (env : NetEnv) (acc : List IPAddr)
    (mon host : String) (ip : IPAddr)
    (hp : hasPort mon = false)
    (hb : mon.data.head? = some '[')
    (htrim : String.mk (trimBracketChars mon.data) = host)
    (hip : env.parseIP host = some ip) :
    stepEntry env acc mon = Except.ok (acc ++ [ip]) := by
  simp only [stepEntry, hp, Bool.false_eq_true, if_false, if_pos hb,
    bind, Except.bind, htrim, hip]

/-- A ported entry whose split host is an unbracketed literal IP
appends exactly that address. -/
theorem stepEntry_port_literal (env : NetEnv) (acc : List IPAddr)
    (mon host port : String) (ip : IPAddr)
    (hp : hasPort mon = true)
    (hsplit : goSplitHostPort mon = Except.ok (host, port))
    (hb : host.data.head? ≠ some '[')
    (hip : env.parseIP host = some ip) :
    stepEntry env acc mon = Except.ok (acc ++ [ip]) := by
  simp only [stepEntry, hp, if_true, hsplit, bind, Except.bind,
    if_neg hb, hip]

/-- A one-entry batch returns the step's addresses with a nil error. -/
theorem parseMon_single (env : NetEnv) (mon : String) (l : List IPAddr)
    (h : stepEntry env [] mon = Except.ok l) :
    ParseMonitorAddresses env [mon] = (l, none) := by
  simp [ParseMonitorAddresses, parseMonAux, h]

/-- Modelled net collaborator for the literal addresses exercised by
the specification: net.ParseIP accepts the IPv4 literal 10.0.0.1 and
the IPv6 literal ::1, and no resolver is available. -/
def netEnvLit : NetEnv where
  parseIP := fun s =>
    if s = "10.0.0.1" then some ⟨"10.0.0.1"⟩
    else if s = "::1" then some ⟨"::1"⟩
    else none
  lookupIP := fun _ => .error "lookup: no such host"

/-- C4 counterexample: with the net collaborator accepting the IPv6
literal, normalize(["[::1]"]) does not return an error: no port is
detected, the brackets are stripped anyway, the literal parses, and
the call succeeds with [::1]. -/
theorem parseMonitorAddresses_bracket_only_counterexample :
    (ParseMonitorAddresses netEnvLit ["[::1]"]).2 = none
    ∧ (ParseMonitorAddresses netEnvLit ["[::1]"]).1 = [⟨"::1"⟩] := by
  constructor <;> rfl

/-- C4 amended: a bracketed IPv6 literal without a port is accepted,
not rejected: port detection finds no port, the bracket-stripping step
runs regardless of port presence, and the stripped literal is parsed,
so normalize(["[::1]"]) = [::1] whenever the net collaborator parses
::1. -/
theorem parseMonitorAddresses_bracket_only (env : NetEnv) (ip : IPAddr)
    (hip : env.parseIP "::1" = some ip) :
    ParseMonitorAddresses env ["[::1]"] = ([ip], none) := by
  apply parseMon_single
  have h := stepEntry_noPort_bracket env [] "[::1]" "::1" ip
    (by decide) (by decide) (by decide) hip
  simpa using h

/-- Concrete instantiation of the C4 amended theorem. -/
theorem parseMonitorAddresses_bracket_only_witness :
    ParseMonitorAddresses netEnvLit ["[::1]"] = ([⟨"::1"⟩], none) :=
  parseMonitorAddresses_bracket_only netEnvLit ⟨"::1"⟩ (by decide)

/-- C5: the normalizer maps the three literal-IP notations of the
specification to their stripped parsed addresses, and port detection
is: for a string opening with a bracket, a match of the bracketed
host-colon-digits pattern; for every other string, the presence of a
colon anywhere. -/
theorem parseMonitorAddresses_literals (env : NetEnv) (ip4 ip6 : IPAddr)
    (h4 : env.parseIP "10.0.0.1" = some ip4)
    (h6 : env.parseIP "::1" = some ip6) :
    ParseMonitorAddresses env ["10.0.0.1"] = ([ip4], none)
    ∧ ParseMonitorAddresses env ["10.0.0.1:6789"] = ([ip4], none)
    ∧ ParseMonitorAddresses env ["[::1]:6789"] = ([ip6], none)
    ∧ (∀ s : String,
        (s.data.head? = some '[' →
          (hasPort s = true ↔ ∃ (mid ds : List Char),
            s.data = '[' :: (mid ++ ']' :: ':' :: ds)
            ∧ (∀ c ∈ mid, c ≠ '\n') ∧ ds ≠ [] ∧ ∀ d ∈ ds, d.isDigit))
        ∧ (s.data.head? ≠ some '[' →
          (hasPort s = true ↔ (':' : Char) ∈ s.data))) := by
  refine ⟨?_, ?_, ?_, ?_⟩
  · apply parseMon_single
    have h := stepEntry_noPort_literal env [] "10.0.0.1" ip4
      (by decide) (by decide) h4
    simpa using h
  · apply parseMon_single
    have h := stepEntry_port_literal env [] "10.0.0.1:6789" "10.0.0.1" "6789"
      ip4 (by decide) rfl (by decide) h4
    simpa using h
  · apply parseMon_single
    have h := stepEntry_port_literal env [] "[::1]:6789" "::1" "6789"
      ip6 (by decide) rfl (by decide) h6
    simpa using h
  · intro s
    constructor
    · intro hb
      obtain ⟨rest, hrest⟩ : ∃ rest, s.data = '[' :: rest := by
        cases hd : s.data with
        | nil => rw [hd] at hb; simp at hb
        | cons x xs =>
            rw [hd] at hb
            simp only [List.head?_cons, Option.some.injEq] at hb
            exact ⟨xs, by rw [hb]⟩
      have hhp : hasPort s = rxTail rest := by
        rw [hasPort, if_pos hb, matchIPv6wPort, hrest]
        simp
      rw [hhp, rxTail_iff]
      constructor
      · rintro ⟨mid, ds, hdec, hmid, hne, hdig⟩
        exact ⟨mid, ds, by rw [hrest, hdec], hmid, hne, hdig⟩
      · rintro ⟨mid, ds, hdec, hmid, hne, hdig⟩
        rw [hrest] at hdec
        simp only [List.cons.injEq] at hdec
        exact ⟨mid, ds, hdec.2, hmid, hne, hdig⟩
    · intro hb
      rw [hasPort, if_neg hb]
      simp

/-- Concrete instantiation of the C5 theorem at the modelled net
collaborator. -/
theorem parseMonitorAddresses_literals_witness :
    ParseMonitorAddresses netEnvLit ["10.0.0.1"] = ([⟨"10.0.0.1"⟩], none) :=
  (parseMonitorAddresses_literals netEnvLit ⟨"10.0.0.1"⟩ ⟨"::1"⟩
    (by decide) (by decide)).1

theorem parseMonAux_error_nil (env : NetEnv) :
    ∀ (addrs : List String) (acc : List IPAddr) (e : String),
      (parseMonAux env acc addrs).2 = some e →
      (parseMonAux env acc addrs).1 = [] := by
  intro addrs
  induction addrs with
  | nil => intro acc e h; simp [parseMonAux] at h
  | cons mon rest ih =>
      intro acc e h
      unfold parseMonAux at h ⊢
      cases hs : stepEntry env acc mon with
      | error e' => rfl
      | ok acc' =>
          rw [hs] at h
          exact ih acc' e h

/-- C6: address normalization is fail-fast with no partial result: a
batch whose result carries an error carries the empty address list,
and as soon as one entry's step fails (host/port split or resolution),
the whole call returns the empty list with that error, discarding the
addresses accumulated from earlier entries. -/
theorem parseMonitorAddresses_fail_fast :
    (∀ (env : NetEnv) (addrs : List String) (e : String),
        (ParseMonitorAddresses env addrs).2 = some e →
        (ParseMonitorAddresses env addrs).1 = [])
    ∧ (∀ (env : NetEnv) (acc : List IPAddr) (mon : String)
        (rest : List String) (e : String),
        stepEntry env acc mon = Except.error e →
        parseMonAux env acc (mon :: rest) = ([], some e)) := by
  constructor
  · intro env addrs e h
    exact parseMonAux_error_nil env addrs [] e h
  · intro env acc mon rest e hs
    unfold parseMonAux
    rw [hs]

/-- Concrete instantiation of the C6 theorem: a failing DNS lookup on
the second entry discards the address already normalized from the
first. -/
theorem parseMonitorAddresses_fail_fast_witness :
    (ParseMonitorAddresses netEnvLit ["10.0.0.1", "unknownhost"]).1 = [] :=
  parseMonitorAddresses_fail_fast.1 netEnvLit ["10.0.0.1", "unknownhost"]
    "lookup: no such host" rfl

end RBDUtils
